import Mathlib

/-!
Verification of the Arma-Legacy2PBR batch texture converter
(src/Arma-Legacy2PBR/Arma-Legacy2PBR.cpp).

The program scans a directory for legacy texture files by role suffix
(_nohq, _smdi, _as, _co), decodes each matched set of four images,
repacks their channels into two new images (NMO and BCR) by a fixed
per-pixel channel copy, and saves the results in three formats.

The embedding below translates the relevant C++ functions into Lean:
  * `getFreeImageFormat`, `findFilesWithSuffix`, `getBaseName`,
    `saveImage` are modelled directly from the source, with directory
    iteration replaced by an injected list of entry paths and the
    FreeImage encode call replaced by an oracle `encode`.
  * The per-pixel double loop of `main` (lines 259-280) is modelled as
    a fold over `List.range` performing explicit byte writes on the two
    output buffers (`repackLoop`).
  * `main`'s batch structure (empty-list check, load loop with modulo
    pairing, abort on decode failure, unload calls on the error path)
    is modelled by `runMain` / `processLoop` over a decode oracle.
Raster images are modelled as `RasterBuffer`: width, height and a byte
array `bits : Nat → Nat` addressed exactly as the C++ code addresses
`FreeImage_GetBits` memory, i.e. byte `(x + y * width) * 4 + c` holds
channel `c` of pixel `(x, y)`.  Inputs are taken post
`FreeImage_ConvertTo32Bits`, i.e. already 4-channel 8-bit, matching the
claims, so `convertTo32Bits` is the identity on this model (it preserves
width and height, which is all the claims use).
-/

/-- One decoded raster image: width, height and the raw byte store as
exposed by FreeImage_GetBits.  `bits k` is the byte at offset `k`. -/
structure RasterBuffer where
  width : Nat
  height : Nat
  bits : Nat → Nat

/-- A single byte store to a raw image buffer, `buffer[i] = v`. -/
def writeByte (buffer : Nat → Nat) (i v : Nat) : Nat → Nat :=
  fun k => if k = i then v else buffer k

/-- The two output byte buffers being filled by the repack loop
(`nmoBuffer` and `bcrBuffer` in main). -/
structure RepackState where
  nmo : Nat → Nat
  bcr : Nat → Nat

/-- Body of the per-pixel loop of main (lines 259-280): at pixel
`(x, y)` it writes the four NMO bytes and the four BCR bytes.  The
index variables mirror the C++ locals, all equal to
`(x + y * width) * 4`. -/
def repackBody (nohqBits smdiBits asBits coBits : Nat → Nat) (width : Nat)
    (s : RepackState) (x y : Nat) : RepackState :=
  let nohqIndex := (x + y * width) * 4
  let smdiIndex := (x + y * width) * 4
  let asIndex := (x + y * width) * 4
  let coIndex := (x + y * width) * 4
  let nmoIndex := (x + y * width) * 4
  let bcrIndex := (x + y * width) * 4
  { nmo :=
      writeByte (writeByte (writeByte (writeByte s.nmo
        (nmoIndex + 0) (smdiBits (smdiIndex + 1)))
        (nmoIndex + 1) (nohqBits (nohqIndex + 1)))
        (nmoIndex + 2) (nohqBits (nohqIndex + 2)))
        (nmoIndex + 3) (asBits (asIndex + 1)),
    bcr :=
      writeByte (writeByte (writeByte (writeByte s.bcr
        (bcrIndex + 0) (coBits (coIndex + 0)))
        (bcrIndex + 1) (coBits (coIndex + 1)))
        (bcrIndex + 2) (coBits (coIndex + 2)))
        (bcrIndex + 3) (smdiBits (smdiIndex + 0)) }

/-- The inner `for (x = 0; x < width; x++)` loop for one row `y`. -/
def repackRow (nohqBits smdiBits asBits coBits : Nat → Nat) (width y : Nat)
    (s : RepackState) : RepackState :=
  (List.range width).foldl
    (fun st x => repackBody nohqBits smdiBits asBits coBits width st x y) s

/-- The full double loop `for y ... for x ...` of main, starting from the
two freshly allocated output buffers `init`. -/
def repackLoop (nohqBits smdiBits asBits coBits : Nat → Nat)
    (width height : Nat) (init : RepackState) : RepackState :=
  (List.range height).foldl
    (fun st y => repackRow nohqBits smdiBits asBits coBits width y st) init

/-- The NMO byte value the loop body assigns at pixel base offset `i`,
channel `ch` (source lines 268-271). -/
def nmoSpec (nohqBits smdiBits asBits : Nat → Nat) (i : Nat) : Nat → Nat :=
  fun ch =>
    match ch with
    | 0 => smdiBits (i + 1)
    | 1 => nohqBits (i + 1)
    | 2 => nohqBits (i + 2)
    | _ => asBits (i + 1)

/-- The BCR byte value the loop body assigns at pixel base offset `i`,
channel `ch` (source lines 274-277). -/
def bcrSpec (smdiBits coBits : Nat → Nat) (i : Nat) : Nat → Nat :=
  fun ch =>
    match ch with
    | 0 => coBits (i + 0)
    | 1 => coBits (i + 1)
    | 2 => coBits (i + 2)
    | _ => smdiBits (i + 0)

/-- FreeImage_Allocate(width, height, 32): a fresh zero-filled buffer. -/
def allocate (w h : Nat) : RasterBuffer :=
  { width := w, height := h, bits := fun _ => 0 }

/-- FreeImage_ConvertTo32Bits.  Inputs of this development are already
modelled as 4-channel 8-bit buffers (the format the claims quantify
over), so the conversion is the identity; in particular it preserves
width and height, as the real call does. -/
def convertTo32Bits (b : RasterBuffer) : RasterBuffer := b

/-- The per-set pixel pipeline of main (lines 225-281): convert the four
inputs to 32 bits, rescale the ambient-shadow image when its dimensions
differ from the primary (nohq) image's, allocate the two outputs, and
run the repack loop.  `rescale` abstracts FreeImage_Rescale.  Returns
(asPrepared, nmo, bcr). -/
def processSetBuffers (rescale : RasterBuffer → Nat → Nat → RasterBuffer)
    (nohq smdi ambient co : RasterBuffer) :
    RasterBuffer × RasterBuffer × RasterBuffer :=
  let width := nohq.width
  let height := nohq.height
  let nohqPrepared := convertTo32Bits nohq
  let smdiPrepared := convertTo32Bits smdi
  let asPrepared0 := convertTo32Bits ambient
  let coPrepared := convertTo32Bits co
  let asPrepared :=
    if asPrepared0.width ≠ width ∨ asPrepared0.height ≠ height then
      rescale asPrepared0 width height
    else asPrepared0
  let nmo := allocate width height
  let bcr := allocate width height
  let st := repackLoop nohqPrepared.bits smdiPrepared.bits asPrepared.bits
    coPrepared.bits width height { nmo := nmo.bits, bcr := bcr.bits }
  (asPrepared,
   { width := width, height := height, bits := st.nmo },
   { width := width, height := height, bits := st.bcr })

/-- `::tolower` on an ASCII character (C locale), as applied by
std::transform in getFreeImageFormat. -/
def asciiToLower (ch : Char) : Char :=
  if 'A' ≤ ch ∧ ch ≤ 'Z' then Char.ofNat (ch.toNat + 32) else ch

/-- `std::transform(extension.begin(), extension.end(), ..., ::tolower)`. -/
def toLowerStr (s : String) : String :=
  String.mk (s.toList.map asciiToLower)

/-- `fs::path::filename()`: the component after the last '/'. -/
def lastComponent (cs : List Char) : List Char :=
  (cs.reverse.takeWhile (fun ch => ch ≠ '/')).reverse

/-- `fs::path(filename).extension().string()`: the suffix of the last
path component starting at its last dot, except that "." and ".." and a
filename whose only dot is its first character have no extension. -/
def extensionOf (filename : String) : String :=
  let f := lastComponent filename.toList
  if f = ['.'] ∨ f = ['.', '.'] then ""
  else
    let rev := f.reverse
    let afterDot := rev.takeWhile (fun ch => ch ≠ '.')
    match rev.drop afterDot.length with
    | [] => ""
    | _ :: pre => if pre = [] then "" else String.mk ('.' :: afterDot.reverse)

/-- The FREE_IMAGE_FORMAT values used by the program. -/
inductive FreeImageFormat where
  | fifTarga
  | fifTiff
  | fifPng
  | fifUnknown
deriving DecidableEq

/-- getFreeImageFormat (source lines 10-23): lowercase the extension and
map ".tga"/".tif"/".png" to a format, anything else to FIF_UNKNOWN. -/
def getFreeImageFormat (filename : String) : FreeImageFormat :=
  let extension := toLowerStr (extensionOf filename)
  if extension = ".tga" then FreeImageFormat.fifTarga
  else if extension = ".tif" then FreeImageFormat.fifTiff
  else if extension = ".png" then FreeImageFormat.fifPng
  else FreeImageFormat.fifUnknown

/-- Whether `p` is a prefix of `q`, on character lists. -/
def isPrefixChars : List Char → List Char → Bool
  | [], _ => true
  | _ :: _, [] => false
  | a :: p, b :: q => a = b && isPrefixChars p q

/-- Whether `pat` occurs as a contiguous substring of `hay`. -/
def containsSub : List Char → List Char → Bool
  | [], pat => isPrefixChars pat []
  | a :: rest, pat => isPrefixChars pat (a :: rest) || containsSub rest pat

/-- `s.find(pat) != std::string::npos`. -/
def stringFind (s pat : String) : Bool :=
  containsSub s.toList pat.toList

/-- findFilesWithSuffix (source lines 85-107), with the directory
iterator replaced by the injected list `entries` of entry paths: keep an
entry when its extension is exactly ".tga", ".tif" or ".png"
(case-sensitive path comparison) and its filename contains `suffix` as a
substring (case-sensitive std::string::find). -/
def findFilesWithSuffix (entries : List String) (suffix : String) :
    List String :=
  entries.filter (fun entry =>
    (extensionOf entry == ".tga" || extensionOf entry == ".tif" ||
      extensionOf entry == ".png") &&
    stringFind (String.mk (lastComponent entry.toList)) suffix)

/-- getBaseName (source lines 77-83): the part before the last '_', or
the whole name when there is no '_'. -/
def getBaseName (filename : String) : String :=
  match filename.toList.reverse.dropWhile (fun ch => ch ≠ '_') with
  | [] => filename
  | _ :: pre => String.mk pre.reverse

/-- saveImage (source lines 39-75): an unrecognized extension is
reported and returns false without writing; otherwise the result is that
of the FreeImage_Save call, abstracted by the `encode` oracle. -/
def saveImage (encode : String → Bool) (filename : String) : Bool :=
  if getFreeImageFormat filename = FreeImageFormat.fifUnknown then false
  else encode filename

/-- The six output filenames attempted for one role set
(source lines 283-295). -/
def outputNames (base : String) : List String :=
  [base ++ "_NMO.tga", base ++ "_BCR.tga",
   base ++ "_NMO.tif", base ++ "_BCR.tif",
   base ++ "_NMO.png", base ++ "_BCR.png"]

/-- The four input paths of one conversion iteration:
(nohq, smdi, as, co). -/
abbrev RoleSetPaths := String × String × String × String

/-- The role set consumed by iteration `i` of main's loop (lines
208-212): `nohqFiles[i]` paired with element `i % size` of each other
role list. -/
def roleSetAt (nohqFiles smdiFiles asFiles coFiles : List String)
    (i : Nat) : RoleSetPaths :=
  (nohqFiles.getD i "",
   smdiFiles.getD (i % smdiFiles.length) "",
   asFiles.getD (i % asFiles.length) "",
   coFiles.getD (i % coFiles.length) "")

/-- The whole sequence of role sets processed by main's loop: one per
element of the primary (nohq) list. -/
def roleSets (nohqFiles smdiFiles asFiles coFiles : List String) :
    List RoleSetPaths :=
  (List.range nohqFiles.length).map (roleSetAt nohqFiles smdiFiles asFiles coFiles)

/-- The four loadImage results for one role set (lines 209-212). -/
def loadFour (decode : String → Option RasterBuffer) (s : RoleSetPaths) :
    Option RasterBuffer × Option RasterBuffer × Option RasterBuffer ×
      Option RasterBuffer :=
  (decode s.1, decode s.2.1, decode s.2.2.1, decode s.2.2.2)

/-- `!(!nohq || !smdi || !as || !co)`: all four loads succeeded. -/
def allSome (t : Option RasterBuffer × Option RasterBuffer ×
    Option RasterBuffer × Option RasterBuffer) : Bool :=
  t.1.isSome && t.2.1.isSome && t.2.2.1.isSome && t.2.2.2.isSome

/-- One FreeImage_Unload call on the error path: releases the buffer
when the pointer is non-null, a no-op on null. -/
def unloadInto (freed : List RasterBuffer) (b : Option RasterBuffer) :
    List RasterBuffer :=
  match b with
  | some buf => freed ++ [buf]
  | none => freed

/-- The buffers released by the four FreeImage_Unload calls on the
decode-failure path (lines 216-219), in call order. -/
def freedOnFailure (t : Option RasterBuffer × Option RasterBuffer ×
    Option RasterBuffer × Option RasterBuffer) : List RasterBuffer :=
  unloadInto (unloadInto (unloadInto (unloadInto [] t.1) t.2.1) t.2.2.1) t.2.2.2

/-- The buffers that were actually decoded among the four load results. -/
def decodedBuffers (t : Option RasterBuffer × Option RasterBuffer ×
    Option RasterBuffer × Option RasterBuffer) : List RasterBuffer :=
  [t.1, t.2.1, t.2.2.1, t.2.2.2].filterMap id

/-- Observable outcome of the batch: the process exit code, every save
attempt (output filename, saveImage result) in order, and the buffers
released on the decode-failure path (empty when no decode failed). -/
structure RunResult where
  exitCode : Int
  attempts : List (String × Bool)
  freedOnError : List RasterBuffer

/-- main's conversion loop (lines 208-310) over the listed role sets:
load the four images of each set; on any decode failure unload all four
pointers and return -1 at once (no later set is processed, no save is
attempted); otherwise attempt the six saves for the set (their results
are ignored) and continue.  An empty list of remaining sets ends the
loop with exit code 0. -/
def processLoop (decode : String → Option RasterBuffer)
    (encode : String → Bool) : List RoleSetPaths → RunResult
  | [] => { exitCode := 0, attempts := [], freedOnError := [] }
  | s :: rest =>
    let t := loadFour decode s
    if allSome t then
      let r := processLoop decode encode rest
      { exitCode := r.exitCode,
        attempts := (outputNames (getBaseName s.1)).map
          (fun n => (n, saveImage encode n)) ++ r.attempts,
        freedOnError := r.freedOnError }
    else
      { exitCode := -1, attempts := [], freedOnError := freedOnFailure t }

/-- main (lines 139-310), observable part: gather the four role lists,
abort with -1 before any processing when any of them is empty (lines
202-206), otherwise run the conversion loop. -/
def runMain (decode : String → Option RasterBuffer) (encode : String → Bool)
    (nohqFiles smdiFiles asFiles coFiles : List String) : RunResult :=
  if nohqFiles.isEmpty || smdiFiles.isEmpty || asFiles.isEmpty ||
      coFiles.isEmpty then
    { exitCode := -1, attempts := [], freedOnError := [] }
  else
    processLoop decode encode (roleSets nohqFiles smdiFiles asFiles coFiles)

/-! ### Lemmas about the per-pixel repack loop -/

theorem repackBody_nmo_apply (n sm a c : Nat → Nat) (width : Nat)
    (s : RepackState) (x y k : Nat) :
    (repackBody n sm a c width s x y).nmo k =
      (if k = (x + y * width) * 4 + 3 then a ((x + y * width) * 4 + 1)
       else if k = (x + y * width) * 4 + 2 then n ((x + y * width) * 4 + 2)
       else if k = (x + y * width) * 4 + 1 then n ((x + y * width) * 4 + 1)
       else if k = (x + y * width) * 4 + 0 then sm ((x + y * width) * 4 + 1)
       else s.nmo k) := rfl

theorem repackBody_bcr_apply (n sm a c : Nat → Nat) (width : Nat)
    (s : RepackState) (x y k : Nat) :
    (repackBody n sm a c width s x y).bcr k =
      (if k = (x + y * width) * 4 + 3 then sm ((x + y * width) * 4 + 0)
       else if k = (x + y * width) * 4 + 2 then c ((x + y * width) * 4 + 2)
       else if k = (x + y * width) * 4 + 1 then c ((x + y * width) * 4 + 1)
       else if k = (x + y * width) * 4 + 0 then c ((x + y * width) * 4 + 0)
       else s.bcr k) := rfl

theorem repackBody_stable (n sm a c : Nat → Nat) (width : Nat)
    (s : RepackState) (x y k : Nat) (hk : k / 4 ≠ x + y * width) :
    (repackBody n sm a c width s x y).nmo k = s.nmo k ∧
      (repackBody n sm a c width s x y).bcr k = s.bcr k := by
  rw [repackBody_nmo_apply, repackBody_bcr_apply]
  generalize hm : x + y * width = m at hk
  have h3 : k ≠ m * 4 + 3 := by omega
  have h2 : k ≠ m * 4 + 2 := by omega
  have h1 : k ≠ m * 4 + 1 := by omega
  have h0 : k ≠ m * 4 + 0 := by omega
  simp only [if_neg h3, if_neg h2, if_neg h1, if_neg h0]
  constructor <;> trivial

theorem repackBody_written (n sm a c : Nat → Nat) (width : Nat)
    (s : RepackState) (x y ch : Nat) (hch : ch < 4) :
    (repackBody n sm a c width s x y).nmo ((x + y * width) * 4 + ch) =
        nmoSpec n sm a ((x + y * width) * 4) ch ∧
      (repackBody n sm a c width s x y).bcr ((x + y * width) * 4 + ch) =
        bcrSpec sm c ((x + y * width) * 4) ch := by
  rw [repackBody_nmo_apply, repackBody_bcr_apply]
  generalize x + y * width = m
  interval_cases ch
  · have h3 : ¬(m * 4 + 0 = m * 4 + 3) := by omega
    have h2 : ¬(m * 4 + 0 = m * 4 + 2) := by omega
    have h1 : ¬(m * 4 + 0 = m * 4 + 1) := by omega
    simp only [if_neg h3, if_neg h2, if_neg h1, if_pos rfl]
    constructor <;> trivial
  · have h3 : ¬(m * 4 + 1 = m * 4 + 3) := by omega
    have h2 : ¬(m * 4 + 1 = m * 4 + 2) := by omega
    simp only [if_neg h3, if_neg h2, if_pos rfl]
    constructor <;> trivial
  · have h3 : ¬(m * 4 + 2 = m * 4 + 3) := by omega
    simp only [if_neg h3, if_pos rfl]
    constructor <;> trivial
  · simp only [if_pos rfl]
    constructor <;> trivial

theorem repackRowAux_stable (n sm a c : Nat → Nat) (width y : Nat)
    (m : Nat) (s : RepackState) (k : Nat)
    (hk : ∀ x, x < m → k / 4 ≠ x + y * width) :
    ((List.range m).foldl
        (fun st x => repackBody n sm a c width st x y) s).nmo k = s.nmo k ∧
      ((List.range m).foldl
        (fun st x => repackBody n sm a c width st x y) s).bcr k = s.bcr k := by
  induction m with
  | zero => exact ⟨rfl, rfl⟩
  | succ m ih =>
    rw [List.range_succ, List.foldl_append, List.foldl_cons, List.foldl_nil]
    have hb := repackBody_stable n sm a c width
      ((List.range m).foldl (fun st x => repackBody n sm a c width st x y) s)
      m y k (hk m (Nat.lt_succ_self m))
    have hi := ih (fun x hx => hk x (Nat.lt_succ_of_lt hx))
    exact ⟨hb.1.trans hi.1, hb.2.trans hi.2⟩

theorem repackRowAux_written (n sm a c : Nat → Nat) (width y : Nat)
    (m : Nat) (s : RepackState) (x ch : Nat) (hx : x < m) (hch : ch < 4) :
    ((List.range m).foldl
        (fun st x' => repackBody n sm a c width st x' y) s).nmo
          ((x + y * width) * 4 + ch) =
        nmoSpec n sm a ((x + y * width) * 4) ch ∧
      ((List.range m).foldl
        (fun st x' => repackBody n sm a c width st x' y) s).bcr
          ((x + y * width) * 4 + ch) =
        bcrSpec sm c ((x + y * width) * 4) ch := by
  induction m with
  | zero => omega
  | succ m ih =>
    rw [List.range_succ, List.foldl_append, List.foldl_cons, List.foldl_nil]
    rcases Nat.lt_succ_iff_lt_or_eq.mp hx with hlt | heq
    · have hne : ((x + y * width) * 4 + ch) / 4 ≠ m + y * width := by
        generalize hyw : y * width = t
        omega
      have hb := repackBody_stable n sm a c width
        ((List.range m).foldl (fun st x' => repackBody n sm a c width st x' y) s)
        m y ((x + y * width) * 4 + ch) hne
      have hi := ih hlt
      exact ⟨hb.1.trans hi.1, hb.2.trans hi.2⟩
    · subst heq
      exact repackBody_written n sm a c width _ x y ch hch

theorem repackLoop_channels (n sm a c : Nat → Nat) (width height : Nat)
    (init : RepackState) (x y ch : Nat)
    (hx : x < width) (hy : y < height) (hch : ch < 4) :
    (repackLoop n sm a c width height init).nmo ((x + y * width) * 4 + ch) =
        nmoSpec n sm a ((x + y * width) * 4) ch ∧
      (repackLoop n sm a c width height init).bcr ((x + y * width) * 4 + ch) =
        bcrSpec sm c ((x + y * width) * 4) ch := by
  unfold repackLoop repackRow
  induction height with
  | zero => omega
  | succ h ih =>
    rw [List.range_succ, List.foldl_append, List.foldl_cons, List.foldl_nil]
    rcases Nat.lt_succ_iff_lt_or_eq.mp hy with hlt | heq
    · have hmul : y * width + width ≤ h * width := by
        calc y * width + width = (y + 1) * width := by ring
          _ ≤ h * width := Nat.mul_le_mul_right width hlt
      have hst := repackRowAux_stable n sm a c width h width
        ((List.range h).foldl
          (fun st y' => (List.range width).foldl
            (fun st2 x' => repackBody n sm a c width st2 x' y') st) init)
        ((x + y * width) * 4 + ch)
        (by
          intro x' hx'
          generalize hyw : y * width = t at hmul
          generalize hhw : h * width = u at hmul
          omega)
      have hi := ih hlt
      exact ⟨hst.1.trans hi.1, hst.2.trans hi.2⟩
    · subst heq
      exact repackRowAux_written n sm a c width y width _ x ch hx hch

/-! ### Claim theorems C1 and C2: the channel copy -/

theorem processSet_nmo_bits (rescale : RasterBuffer → Nat → Nat → RasterBuffer)
    (nohq smdi ambient co : RasterBuffer)
    (haw : ambient.width = nohq.width) (hah : ambient.height = nohq.height) :
    (processSetBuffers rescale nohq smdi ambient co).2.1.bits =
      (repackLoop nohq.bits smdi.bits ambient.bits co.bits nohq.width
        nohq.height
        { nmo := (allocate nohq.width nohq.height).bits,
          bcr := (allocate nohq.width nohq.height).bits }).nmo := by
  simp only [processSetBuffers, convertTo32Bits]
  rw [if_neg (by simp [haw, hah])]

theorem processSet_bcr_bits (rescale : RasterBuffer → Nat → Nat → RasterBuffer)
    (nohq smdi ambient co : RasterBuffer)
    (haw : ambient.width = nohq.width) (hah : ambient.height = nohq.height) :
    (processSetBuffers rescale nohq smdi ambient co).2.2.bits =
      (repackLoop nohq.bits smdi.bits ambient.bits co.bits nohq.width
        nohq.height
        { nmo := (allocate nohq.width nohq.height).bits,
          bcr := (allocate nohq.width nohq.height).bits }).bcr := by
  simp only [processSetBuffers, convertTo32Bits]
  rw [if_neg (by simp [haw, hah])]

/-- C1: for four same-size 4-channel 8-bit input buffers and every pixel
coordinate (x, y), the computed NMO buffer has channel 0 equal to
specular_gloss's (smdi's) channel 1, channel 1 equal to normal_height's
(nohq's) channel 1, channel 2 equal to normal_height's channel 2, and
channel 3 equal to ambient_shadow's (as's) channel 1 — a direct copy,
no blending or averaging. -/
theorem nmo_channel_copy (rescale : RasterBuffer → Nat → Nat → RasterBuffer)
    (nohq smdi ambient co : RasterBuffer)
    (hsw : smdi.width = nohq.width) (hsh : smdi.height = nohq.height)
    (haw : ambient.width = nohq.width) (hah : ambient.height = nohq.height)
    (hcw : co.width = nohq.width) (hchh : co.height = nohq.height)
    (x y : Nat) (hx : x < nohq.width) (hy : y < nohq.height) :
    (processSetBuffers rescale nohq smdi ambient co).2.1.bits
        ((x + y * nohq.width) * 4 + 0) =
      smdi.bits ((x + y * nohq.width) * 4 + 1) ∧
    (processSetBuffers rescale nohq smdi ambient co).2.1.bits
        ((x + y * nohq.width) * 4 + 1) =
      nohq.bits ((x + y * nohq.width) * 4 + 1) ∧
    (processSetBuffers rescale nohq smdi ambient co).2.1.bits
        ((x + y * nohq.width) * 4 + 2) =
      nohq.bits ((x + y * nohq.width) * 4 + 2) ∧
    (processSetBuffers rescale nohq smdi ambient co).2.1.bits
        ((x + y * nohq.width) * 4 + 3) =
      ambient.bits ((x + y * nohq.width) * 4 + 1) := by
  rw [processSet_nmo_bits rescale nohq smdi ambient co haw hah]
  refine ⟨?_, ?_, ?_, ?_⟩
  · exact (repackLoop_channels nohq.bits smdi.bits ambient.bits co.bits
      nohq.width nohq.height _ x y 0 hx hy (by omega)).1
  · exact (repackLoop_channels nohq.bits smdi.bits ambient.bits co.bits
      nohq.width nohq.height _ x y 1 hx hy (by omega)).1
  · exact (repackLoop_channels nohq.bits smdi.bits ambient.bits co.bits
      nohq.width nohq.height _ x y 2 hx hy (by omega)).1
  · exact (repackLoop_channels nohq.bits smdi.bits ambient.bits co.bits
      nohq.width nohq.height _ x y 3 hx hy (by omega)).1

theorem nmo_channel_copy_witness :
    (0 : Nat) < 1 ∧
    ((processSetBuffers (fun b _ _ => b) ⟨1, 1, fun k => k + 10⟩
        ⟨1, 1, fun k => k + 20⟩ ⟨1, 1, fun k => k + 30⟩
        ⟨1, 1, fun k => k + 40⟩).2.1.bits ((0 + 0 * 1) * 4 + 0) = 21 ∧
      (processSetBuffers (fun b _ _ => b) ⟨1, 1, fun k => k + 10⟩
        ⟨1, 1, fun k => k + 20⟩ ⟨1, 1, fun k => k + 30⟩
        ⟨1, 1, fun k => k + 40⟩).2.1.bits ((0 + 0 * 1) * 4 + 1) = 11 ∧
      (processSetBuffers (fun b _ _ => b) ⟨1, 1, fun k => k + 10⟩
        ⟨1, 1, fun k => k + 20⟩ ⟨1, 1, fun k => k + 30⟩
        ⟨1, 1, fun k => k + 40⟩).2.1.bits ((0 + 0 * 1) * 4 + 2) = 12 ∧
      (processSetBuffers (fun b _ _ => b) ⟨1, 1, fun k => k + 10⟩
        ⟨1, 1, fun k => k + 20⟩ ⟨1, 1, fun k => k + 30⟩
        ⟨1, 1, fun k => k + 40⟩).2.1.bits ((0 + 0 * 1) * 4 + 3) = 31) := by
  have h := nmo_channel_copy (fun b _ _ => b) ⟨1, 1, fun k => k + 10⟩
    ⟨1, 1, fun k => k + 20⟩ ⟨1, 1, fun k => k + 30⟩ ⟨1, 1, fun k => k + 40⟩
    rfl rfl rfl rfl rfl rfl 0 0 (by decide) (by decide)
  exact ⟨by decide, h.1, h.2.1, h.2.2.1, h.2.2.2⟩

/-- C2: for four same-size 4-channel 8-bit input buffers and every pixel
coordinate (x, y), the computed BCR buffer has channels 0, 1 and 2 equal
to base_color's (co's) channels 0, 1 and 2 respectively, and channel 3
equal to specular_gloss's (smdi's) channel 0. -/
theorem bcr_channel_copy (rescale : RasterBuffer → Nat → Nat → RasterBuffer)
    (nohq smdi ambient co : RasterBuffer)
    (hsw : smdi.width = nohq.width) (hsh : smdi.height = nohq.height)
    (haw : ambient.width = nohq.width) (hah : ambient.height = nohq.height)
    (hcw : co.width = nohq.width) (hchh : co.height = nohq.height)
    (x y : Nat) (hx : x < nohq.width) (hy : y < nohq.height) :
    (processSetBuffers rescale nohq smdi ambient co).2.2.bits
        ((x + y * nohq.width) * 4 + 0) =
      co.bits ((x + y * nohq.width) * 4 + 0) ∧
    (processSetBuffers rescale nohq smdi ambient co).2.2.bits
        ((x + y * nohq.width) * 4 + 1) =
      co.bits ((x + y * nohq.width) * 4 + 1) ∧
    (processSetBuffers rescale nohq smdi ambient co).2.2.bits
        ((x + y * nohq.width) * 4 + 2) =
      co.bits ((x + y * nohq.width) * 4 + 2) ∧
    (processSetBuffers rescale nohq smdi ambient co).2.2.bits
        ((x + y * nohq.width) * 4 + 3) =
      smdi.bits ((x + y * nohq.width) * 4 + 0) := by
  rw [processSet_bcr_bits rescale nohq smdi ambient co haw hah]
  refine ⟨?_, ?_, ?_, ?_⟩
  · exact (repackLoop_channels nohq.bits smdi.bits ambient.bits co.bits
      nohq.width nohq.height _ x y 0 hx hy (by omega)).2
  · exact (repackLoop_channels nohq.bits smdi.bits ambient.bits co.bits
      nohq.width nohq.height _ x y 1 hx hy (by omega)).2
  · exact (repackLoop_channels nohq.bits smdi.bits ambient.bits co.bits
      nohq.width nohq.height _ x y 2 hx hy (by omega)).2
  · exact (repackLoop_channels nohq.bits smdi.bits ambient.bits co.bits
      nohq.width nohq.height _ x y 3 hx hy (by omega)).2

theorem bcr_channel_copy_witness :
    (0 : Nat) < 1 ∧
    ((processSetBuffers (fun b _ _ => b) ⟨1, 1, fun k => k + 10⟩
        ⟨1, 1, fun k => k + 20⟩ ⟨1, 1, fun k => k + 30⟩
        ⟨1, 1, fun k => k + 40⟩).2.2.bits ((0 + 0 * 1) * 4 + 0) = 40 ∧
      (processSetBuffers (fun b _ _ => b) ⟨1, 1, fun k => k + 10⟩
        ⟨1, 1, fun k => k + 20⟩ ⟨1, 1, fun k => k + 30⟩
        ⟨1, 1, fun k => k + 40⟩).2.2.bits ((0 + 0 * 1) * 4 + 1) = 41 ∧
      (processSetBuffers (fun b _ _ => b) ⟨1, 1, fun k => k + 10⟩
        ⟨1, 1, fun k => k + 20⟩ ⟨1, 1, fun k => k + 30⟩
        ⟨1, 1, fun k => k + 40⟩).2.2.bits ((0 + 0 * 1) * 4 + 2) = 42 ∧
      (processSetBuffers (fun b _ _ => b) ⟨1, 1, fun k => k + 10⟩
        ⟨1, 1, fun k => k + 20⟩ ⟨1, 1, fun k => k + 30⟩
        ⟨1, 1, fun k => k + 40⟩).2.2.bits ((0 + 0 * 1) * 4 + 3) = 20) := by
  have h := bcr_channel_copy (fun b _ _ => b) ⟨1, 1, fun k => k + 10⟩
    ⟨1, 1, fun k => k + 20⟩ ⟨1, 1, fun k => k + 30⟩ ⟨1, 1, fun k => k + 40⟩
    rfl rfl rfl rfl rfl rfl 0 0 (by decide) (by decide)
  exact ⟨by decide, h.1, h.2.1, h.2.2.1, h.2.2.2⟩

/-! ### Claim theorems C3, C4, C5: batch structure -/

/-- C3: for non-empty role lists, main performs one iteration per entry
of the primary (nohq) list, and iteration i pairs primary file i with
element `i % L` of each other role list of length L; a single-element
non-primary list therefore contributes its one file to every
iteration. -/
theorem roleSets_pairing (nohqFiles smdiFiles asFiles coFiles : List String)
    (hn : nohqFiles ≠ []) (hs : smdiFiles ≠ []) (ha : asFiles ≠ [])
    (hc : coFiles ≠ []) :
    (roleSets nohqFiles smdiFiles asFiles coFiles).length =
      nohqFiles.length ∧
    (∀ i (hi : i < nohqFiles.length),
      (roleSets nohqFiles smdiFiles asFiles coFiles).get? i =
        some (nohqFiles.get ⟨i, hi⟩,
          smdiFiles.get ⟨i % smdiFiles.length,
            Nat.mod_lt i (List.length_pos.mpr hs)⟩,
          asFiles.get ⟨i % asFiles.length,
            Nat.mod_lt i (List.length_pos.mpr ha)⟩,
          coFiles.get ⟨i % coFiles.length,
            Nat.mod_lt i (List.length_pos.mpr hc)⟩)) ∧
    (smdiFiles.length = 1 → ∀ i, i < nohqFiles.length →
      ((roleSets nohqFiles smdiFiles asFiles coFiles).get? i).map
        (fun t => t.2.1) = some (smdiFiles.getD 0 "")) ∧
    (asFiles.length = 1 → ∀ i, i < nohqFiles.length →
      ((roleSets nohqFiles smdiFiles asFiles coFiles).get? i).map
        (fun t => t.2.2.1) = some (asFiles.getD 0 "")) ∧
    (coFiles.length = 1 → ∀ i, i < nohqFiles.length →
      ((roleSets nohqFiles smdiFiles asFiles coFiles).get? i).map
        (fun t => t.2.2.2) = some (coFiles.getD 0 "")) := by
  refine ⟨by simp [roleSets], ?_, ?_, ?_, ?_⟩
  · intro i hi
    simp [roleSets, List.get?_eq_getElem?, List.getElem?_map,
      List.getElem?_range hi, roleSetAt,
      List.getElem?_eq_getElem hi,
      List.getElem?_eq_getElem (Nat.mod_lt i (List.length_pos.mpr hs)),
      List.getElem?_eq_getElem (Nat.mod_lt i (List.length_pos.mpr ha)),
      List.getElem?_eq_getElem (Nat.mod_lt i (List.length_pos.mpr hc))]
  · intro hlen i hi
    have h0 : 0 < smdiFiles.length := by omega
    simp [roleSets, List.get?_eq_getElem?, List.getElem?_map,
      List.getElem?_range hi, roleSetAt, hlen, Nat.mod_one,
      List.getElem?_eq_getElem h0]
  · intro hlen i hi
    have h0 : 0 < asFiles.length := by omega
    simp [roleSets, List.get?_eq_getElem?, List.getElem?_map,
      List.getElem?_range hi, roleSetAt, hlen, Nat.mod_one,
      List.getElem?_eq_getElem h0]
  · intro hlen i hi
    have h0 : 0 < coFiles.length := by omega
    simp [roleSets, List.get?_eq_getElem?, List.getElem?_map,
      List.getElem?_range hi, roleSetAt, hlen, Nat.mod_one,
      List.getElem?_eq_getElem h0]

theorem roleSets_pairing_witness :
    (roleSets ["a_nohq.tga", "b_nohq.tga", "c_nohq.tga"] ["s_smdi.tga"]
      ["x_as.tga", "y_as.tga"] ["w_co.tga"]).length = 3 ∧
    ((roleSets ["a_nohq.tga", "b_nohq.tga", "c_nohq.tga"] ["s_smdi.tga"]
      ["x_as.tga", "y_as.tga"] ["w_co.tga"]).get? 2).map
      (fun t => t.2.1) = some "s_smdi.tga" := by
  have h := roleSets_pairing ["a_nohq.tga", "b_nohq.tga", "c_nohq.tga"]
    ["s_smdi.tga"] ["x_as.tga", "y_as.tga"] ["w_co.tga"]
    (by decide) (by decide) (by decide) (by decide)
  exact ⟨h.1, h.2.2.1 rfl 2 (by decide)⟩

/-- C4: when any of the four role lists is empty, main returns -1 before
processing any role set: no save is attempted and no buffer is ever
loaded. -/
theorem empty_role_list_aborts (decode : String → Option RasterBuffer)
    (encode : String → Bool) (nohqFiles smdiFiles asFiles coFiles : List String)
    (h : nohqFiles = [] ∨ smdiFiles = [] ∨ asFiles = [] ∨ coFiles = []) :
    runMain decode encode nohqFiles smdiFiles asFiles coFiles =
      { exitCode := -1, attempts := [], freedOnError := [] } := by
  unfold runMain
  rcases h with h | h | h | h <;> subst h <;> simp

theorem empty_role_list_aborts_witness :
    ((["a_nohq.tga"] : List String) = [] ∨ (["b_smdi.tga"] : List String) = [] ∨
      (["c_as.tga"] : List String) = [] ∨ ([] : List String) = []) ∧
    runMain (fun _ => none) (fun _ => false) ["a_nohq.tga"] ["b_smdi.tga"]
        ["c_as.tga"] [] =
      { exitCode := -1, attempts := [], freedOnError := [] } := by
  have h := empty_role_list_aborts (fun _ => none) (fun _ => false)
    ["a_nohq.tga"] ["b_smdi.tga"] ["c_as.tga"] []
    (Or.inr (Or.inr (Or.inr rfl)))
  exact ⟨Or.inr (Or.inr (Or.inr rfl)), h⟩

theorem freedOnFailure_eq_decodedBuffers (t : Option RasterBuffer ×
    Option RasterBuffer × Option RasterBuffer × Option RasterBuffer) :
    freedOnFailure t = decodedBuffers t := by
  obtain ⟨o1, o2, o3, o4⟩ := t
  cases o1 <;> cases o2 <;> cases o3 <;> cases o4 <;> rfl

/-- C5: when decoding any of the four inputs of a role set fails, the
batch stops at once with exit code -1 — no save is attempted for this
or any later role set — and exactly the buffers that were decoded for
this role set are released by the unload calls on the error path. -/
theorem decode_failure_aborts (decode : String → Option RasterBuffer)
    (encode : String → Bool) (s : RoleSetPaths) (rest : List RoleSetPaths)
    (h : allSome (loadFour decode s) = false) :
    (processLoop decode encode (s :: rest)).exitCode = -1 ∧
    (processLoop decode encode (s :: rest)).attempts = [] ∧
    (processLoop decode encode (s :: rest)).freedOnError =
      decodedBuffers (loadFour decode s) := by
  have hfree := freedOnFailure_eq_decodedBuffers (loadFour decode s)
  simp [processLoop, h, hfree]

theorem decode_failure_aborts_witness :
    allSome (loadFour
      (fun p => if p = "a_nohq.tga" then
        some ⟨1, 1, fun _ => 0⟩ else none)
      ("a_nohq.tga", "s_smdi.tga", "x_as.tga", "w_co.tga")) = false ∧
    (processLoop
      (fun p => if p = "a_nohq.tga" then
        some ⟨1, 1, fun _ => 0⟩ else none)
      (fun _ => true)
      [("a_nohq.tga", "s_smdi.tga", "x_as.tga", "w_co.tga"),
       ("b_nohq.tga", "s_smdi.tga", "x_as.tga", "w_co.tga")]).exitCode = -1 ∧
    (processLoop
      (fun p => if p = "a_nohq.tga" then
        some ⟨1, 1, fun _ => 0⟩ else none)
      (fun _ => true)
      [("a_nohq.tga", "s_smdi.tga", "x_as.tga", "w_co.tga"),
       ("b_nohq.tga", "s_smdi.tga", "x_as.tga", "w_co.tga")]).attempts = [] := by
  have h := decode_failure_aborts
    (fun p => if p = "a_nohq.tga" then
      some ⟨1, 1, fun _ => 0⟩ else none)
    (fun _ => true)
    ("a_nohq.tga", "s_smdi.tga", "x_as.tga", "w_co.tga")
    [("b_nohq.tga", "s_smdi.tga", "x_as.tga", "w_co.tga")]
    (by decide)
  exact ⟨by decide, h.1, h.2.1⟩

/-! ### Claim theorem C6: only the ambient-shadow input is resized -/

/-- C6: assuming FreeImage_Rescale returns an image of the requested
dimensions, the prepared ambient_shadow buffer always has exactly the
primary's width and height; both outputs (NMO, BCR) have the primary's
width and height; when ambient_shadow already matches, it is passed
through unresized; and the repack consumes the nohq, smdi and co buffers
exactly as given (no input other than ambient_shadow is resized). -/
theorem ambient_resample (rescale : RasterBuffer → Nat → Nat → RasterBuffer)
    (hres : ∀ b w h, (rescale b w h).width = w ∧ (rescale b w h).height = h)
    (nohq smdi ambient co : RasterBuffer) :
    ((processSetBuffers rescale nohq smdi ambient co).1.width = nohq.width ∧
     (processSetBuffers rescale nohq smdi ambient co).1.height = nohq.height) ∧
    ((processSetBuffers rescale nohq smdi ambient co).2.1.width = nohq.width ∧
     (processSetBuffers rescale nohq smdi ambient co).2.1.height = nohq.height) ∧
    ((processSetBuffers rescale nohq smdi ambient co).2.2.width = nohq.width ∧
     (processSetBuffers rescale nohq smdi ambient co).2.2.height = nohq.height) ∧
    (ambient.width = nohq.width ∧ ambient.height = nohq.height →
      (processSetBuffers rescale nohq smdi ambient co).1 = ambient) ∧
    (processSetBuffers rescale nohq smdi ambient co).2.1.bits =
      (repackLoop nohq.bits smdi.bits
        (processSetBuffers rescale nohq smdi ambient co).1.bits co.bits
        nohq.width nohq.height
        { nmo := (allocate nohq.width nohq.height).bits,
          bcr := (allocate nohq.width nohq.height).bits }).nmo ∧
    (processSetBuffers rescale nohq smdi ambient co).2.2.bits =
      (repackLoop nohq.bits smdi.bits
        (processSetBuffers rescale nohq smdi ambient co).1.bits co.bits
        nohq.width nohq.height
        { nmo := (allocate nohq.width nohq.height).bits,
          bcr := (allocate nohq.width nohq.height).bits }).bcr := by
  by_cases hcond : ambient.width ≠ nohq.width ∨ ambient.height ≠ nohq.height
  · have hr := hres ambient nohq.width nohq.height
    simp only [processSetBuffers, convertTo32Bits, if_pos hcond]
    refine ⟨⟨hr.1, hr.2⟩, ⟨by trivial, by trivial⟩, ⟨by trivial, by trivial⟩,
      ?_, by trivial, by trivial⟩
    intro hdim
    rcases hcond with hne | hne
    · exact absurd hdim.1 hne
    · exact absurd hdim.2 hne
  · simp only [processSetBuffers, convertTo32Bits, if_neg hcond]
    push_neg at hcond
    exact ⟨⟨hcond.1, hcond.2⟩, ⟨by trivial, by trivial⟩,
      ⟨by trivial, by trivial⟩, fun _ => by trivial, by trivial, by trivial⟩

theorem ambient_resample_witness :
    (processSetBuffers (fun b w h => RasterBuffer.mk w h b.bits)
      ⟨4, 4, fun k => k⟩ ⟨4, 4, fun k => k⟩ ⟨2, 2, fun k => k⟩
      ⟨4, 4, fun k => k⟩).1.width = 4 ∧
    (processSetBuffers (fun b w h => RasterBuffer.mk w h b.bits)
      ⟨4, 4, fun k => k⟩ ⟨4, 4, fun k => k⟩ ⟨2, 2, fun k => k⟩
      ⟨4, 4, fun k => k⟩).1.height = 4 ∧
    (processSetBuffers (fun b w h => RasterBuffer.mk w h b.bits)
      ⟨4, 4, fun k => k⟩ ⟨4, 4, fun k => k⟩ ⟨2, 2, fun k => k⟩
      ⟨4, 4, fun k => k⟩).2.1.width = 4 ∧
    (processSetBuffers (fun b w h => RasterBuffer.mk w h b.bits)
      ⟨4, 4, fun k => k⟩ ⟨4, 4, fun k => k⟩ ⟨2, 2, fun k => k⟩
      ⟨4, 4, fun k => k⟩).2.2.height = 4 := by
  have h := ambient_resample (fun b w h => RasterBuffer.mk w h b.bits)
    (fun b w h => ⟨rfl, rfl⟩)
    ⟨4, 4, fun k => k⟩ ⟨4, 4, fun k => k⟩ ⟨2, 2, fun k => k⟩ ⟨4, 4, fun k => k⟩
  exact ⟨h.1.1, h.1.2, h.2.1.1, h.2.2.1.2⟩

/-! ### Claim theorems C7, C8, C10: file matching -/

/-- C7 counterexample: matching is not case-insensitive.  Searching role
suffix "_nohq": the lowercase name rock_nohq.tga is matched, but
Rock_NoHQ.TGA (same name up to letter case) is not, and neither is
Rock_NoHQ.tga (only the suffix token differing in case). -/
theorem case_sensitive_counterexample :
    findFilesWithSuffix ["Rock_NoHQ.TGA"] "_nohq" = [] ∧
    findFilesWithSuffix ["Rock_NoHQ.tga"] "_nohq" = [] ∧
    findFilesWithSuffix ["rock_nohq.tga"] "_nohq" = ["rock_nohq.tga"] := by
  decide

/-- C7 amended: file matching is case-sensitive in both the role-suffix
token and the extension: a file is included in a role list exactly when
its extension is literally ".tga", ".tif" or ".png" and its filename
contains the suffix token verbatim as a substring. -/
theorem matching_case_sensitive (entries : List String) (suffix name : String) :
    name ∈ findFilesWithSuffix entries suffix ↔
      name ∈ entries ∧
      (extensionOf name = ".tga" ∨ extensionOf name = ".tif" ∨
        extensionOf name = ".png") ∧
      stringFind (String.mk (lastComponent name.toList)) suffix = true := by
  simp [findFilesWithSuffix, List.mem_filter, Bool.and_eq_true,
    Bool.or_eq_true, beq_iff_eq, and_assoc, or_assoc]

/-- C8 counterexample: a filename with extension ".tiff" is mapped to
FIF_UNKNOWN, not to the TIFF format, and the file matcher does not
include .tiff files in role lists. -/
theorem tiff_counterexample :
    getFreeImageFormat "a.tiff" = FreeImageFormat.fifUnknown ∧
    findFilesWithSuffix ["rock_nohq.tiff"] "_nohq" = [] := by
  decide

/-- C8 amended: .tiff files are not supported: every filename whose
extension lowercases to ".tiff" is mapped to FIF_UNKNOWN by the
format-detection function, and the file matcher excludes it from every
role list; only .tga, .tif and .png files are matched. -/
theorem tiff_not_supported (f : String)
    (h : toLowerStr (extensionOf f) = ".tiff") :
    getFreeImageFormat f = FreeImageFormat.fifUnknown ∧
    ∀ (entries : List String) (suffix : String),
      f ∉ findFilesWithSuffix entries suffix := by
  constructor
  · simp only [getFreeImageFormat, h]
    decide
  · intro entries suffix hmem
    simp only [findFilesWithSuffix, List.mem_filter, Bool.and_eq_true,
      Bool.or_eq_true, beq_iff_eq, or_assoc] at hmem
    rcases hmem with ⟨-, ⟨hext | hext | hext, -⟩⟩ <;>
      (rw [hext] at h; exact absurd h (by decide))

theorem tiff_not_supported_witness :
    toLowerStr (extensionOf "a.TiFF") = ".tiff" ∧
    getFreeImageFormat "a.TiFF" = FreeImageFormat.fifUnknown ∧
    "a.TiFF" ∉ findFilesWithSuffix ["a.TiFF"] "a" := by
  have h := tiff_not_supported "a.TiFF" (by decide)
  exact ⟨by decide, h.1, h.2 ["a.TiFF"] "a"⟩

/-- C10: role matching is substring containment anywhere in the
filename: any directory entry with a supported extension whose name
contains a role token as a substring lands in that role's list, so a
name containing several role tokens (wall_asphalt_co.png contains both
"_as" and "_co") is consumed as several different roles in one run. -/
theorem substring_match_any_role (entries : List String)
    (name suffix : String) (hmem : name ∈ entries)
    (hext : extensionOf name = ".tga" ∨ extensionOf name = ".tif" ∨
      extensionOf name = ".png")
    (hsub : stringFind (String.mk (lastComponent name.toList)) suffix = true) :
    name ∈ findFilesWithSuffix entries suffix := by
  simp only [findFilesWithSuffix, List.mem_filter, Bool.and_eq_true,
    Bool.or_eq_true, beq_iff_eq]
  refine ⟨hmem, ?_, hsub⟩
  tauto

theorem substring_match_any_role_witness :
    "wall_asphalt_co.png" ∈ ["wall_asphalt_co.png"] ∧
    stringFind (String.mk (lastComponent "wall_asphalt_co.png".toList))
      "_as" = true ∧
    stringFind (String.mk (lastComponent "wall_asphalt_co.png".toList))
      "_co" = true ∧
    "wall_asphalt_co.png" ∈ findFilesWithSuffix ["wall_asphalt_co.png"] "_as" ∧
    "wall_asphalt_co.png" ∈ findFilesWithSuffix ["wall_asphalt_co.png"] "_co" := by
  refine ⟨by decide, by decide, by decide, ?_, ?_⟩
  · exact substring_match_any_role ["wall_asphalt_co.png"]
      "wall_asphalt_co.png" "_as" (by decide) (by decide) (by decide)
  · exact substring_match_any_role ["wall_asphalt_co.png"]
      "wall_asphalt_co.png" "_co" (by decide) (by decide) (by decide)

/-! ### Claim theorem C9: a failed save is local to that attempt -/

theorem map_fst_pair (f : String → Bool) (l : List String) :
    (l.map (fun n => (n, f n))).map Prod.fst = l := by
  induction l with
  | nil => rfl
  | cons a t ih => simp [ih]

/-- C9: saveImage returns false on an unrecognized output extension (and
on an encode failure, since it returns the encoder's result), and save
outcomes never influence the batch: the exit code and the ordered list
of attempted output filenames are the same whatever the encoder does,
so a failed write never suppresses later save attempts or later role
sets and never causes a non-zero exit. -/
theorem save_failure_local (decode : String → Option RasterBuffer)
    (encodeA encodeB : String → Bool) (sets : List RoleSetPaths)
    (n : String) (h : getFreeImageFormat n = FreeImageFormat.fifUnknown) :
    saveImage encodeA n = false ∧
    (processLoop decode encodeA sets).exitCode =
      (processLoop decode encodeB sets).exitCode ∧
    (processLoop decode encodeA sets).attempts.map Prod.fst =
      (processLoop decode encodeB sets).attempts.map Prod.fst := by
  refine ⟨by simp [saveImage, h], ?_⟩
  induction sets with
  | nil => exact ⟨rfl, rfl⟩
  | cons s rest ih =>
    by_cases hall : allSome (loadFour decode s) = true
    · simp only [processLoop, hall, if_pos, List.map_append, map_fst_pair]
      exact ⟨ih.1, by rw [ih.2]⟩
    · simp only [processLoop, Bool.not_eq_true] at hall ⊢
      simp [hall]

theorem save_failure_local_witness :
    getFreeImageFormat "wall_NMO.doc" = FreeImageFormat.fifUnknown ∧
    saveImage (fun _ => true) "wall_NMO.doc" = false ∧
    (processLoop (fun _ => some ⟨1, 1, fun _ => 0⟩) (fun _ => true)
      [("a_nohq.tga", "s_smdi.tga", "x_as.tga", "w_co.tga")]).exitCode =
    (processLoop (fun _ => some ⟨1, 1, fun _ => 0⟩) (fun _ => false)
      [("a_nohq.tga", "s_smdi.tga", "x_as.tga", "w_co.tga")]).exitCode ∧
    ((processLoop (fun _ => some ⟨1, 1, fun _ => 0⟩) (fun _ => true)
      [("a_nohq.tga", "s_smdi.tga", "x_as.tga", "w_co.tga")]).attempts.map
        Prod.fst =
    (processLoop (fun _ => some ⟨1, 1, fun _ => 0⟩) (fun _ => false)
      [("a_nohq.tga", "s_smdi.tga", "x_as.tga", "w_co.tga")]).attempts.map
        Prod.fst) := by
  have h := save_failure_local (fun _ => some ⟨1, 1, fun _ => 0⟩)
    (fun _ => true) (fun _ => false)
    [("a_nohq.tga", "s_smdi.tga", "x_as.tga", "w_co.tga")]
    "wall_NMO.doc" (by decide)
  exact ⟨by decide, h.1, h.2.1, h.2.2⟩
